import Mathlib

set_option maxRecDepth 4000

/-!
Verification of the message-watch pipeline of the `papi` chat add-on.

The definitions below are a shallow embedding of the Python source:

* `src/papi/watch/listener.py` — placeholder extraction (`PLACEHOLDER_REGEX.findall`),
  `dedupe_placeholders`, `check_cooldown`, `parse_message_placeholders`,
  `should_process_watch`, `on_message`;
* `src/papi/helpers/api.py` — `parse_placeholder_via_api`;
* `src/papi/helpers/roles.py` — `parse_allowed_roles`.

Machine timestamps are modelled as whole seconds (`Nat`), with `datetime.min`
mapped to `0`.  The remote HTTP call is modelled by an explicit transport
outcome; the JSON response dict is modelled by the fields the code reads,
plus a flag recording whether any other keys are present (so that Python
truthiness of the dict is represented exactly).  Effects on the chat platform
are modelled as an explicit list of output actions.
-/

/-! ## Python string primitives (on `List Char`) -/

/-- Python `str.lower()`. -/
def pyLower (s : String) : String := String.mk (s.data.map Char.toLower)

/-- Python `str.lstrip()`. -/
def pyLStrip (s : String) : String := String.mk (s.data.dropWhile Char.isWhitespace)

/-- Strip a character class from both ends of a list
(Python `str.strip(chars)` / `str.strip()`). -/
def stripList (p : Char → Bool) (l : List Char) : List Char :=
  ((l.dropWhile p).reverse.dropWhile p).reverse

/-- Python `str.strip()` (whitespace). -/
def pyStrip (s : String) : String := String.mk (stripList Char.isWhitespace s.data)

/-- Python `str.startswith(pre)`. -/
def pyStartsWith (s pre : String) : Bool := pre.data.isPrefixOf s.data

/-- Python `s[n:]` (drop the first `n` characters). -/
def pyDrop (s : String) (n : Nat) : String := String.mk (s.data.drop n)

/-- Python `str.isdigit()` restricted to ASCII: nonempty and all digits. -/
def pyIsDigit (s : String) : Bool := !s.data.isEmpty && s.data.all Char.isDigit

/-- Python `int(...)` on a digit string. -/
def strToNat (s : String) : Nat :=
  s.data.foldl (fun acc c => acc * 10 + (c.toNat - Char.toNat '0')) 0

/-- One pass of Python `str.replace`: replace each leftmost, non-overlapping
occurrence of `pat` (nonempty here) in the scanned list.  The `Nat` argument
is structural-recursion fuel; every call site passes the scanned list's
length, which the scan never exhausts because each step consumes at least
one character. -/
def replaceAux (pat rep : List Char) : Nat → List Char → List Char
  | _, [] => []
  | 0, l => l
  | fuel + 1, c :: cs =>
    if pat ≠ [] ∧ pat.isPrefixOf (c :: cs) then
      rep ++ replaceAux pat rep fuel (cs.drop (pat.length - 1))
    else
      c :: replaceAux pat rep fuel cs

/-- Python `s.replace(pat, rep)` (all non-overlapping occurrences, left to
right; for an empty pattern Python inserts `rep` at every position). -/
def pyReplace (s pat rep : String) : String :=
  if pat.data = [] then
    String.mk (rep.data ++ s.data.flatMap (fun c => c :: rep.data))
  else String.mk (replaceAux pat.data rep.data s.data.length s.data)

/-- Python `s.split(",")` on character lists. -/
def splitComma : List Char → List (List Char)
  | [] => [[]]
  | c :: cs =>
    if c = ',' then [] :: splitComma cs
    else
      match splitComma cs with
      | h :: t => (c :: h) :: t
      | [] => [[c]]

/-! ## Placeholder extraction (`PLACEHOLDER_REGEX = re.compile(r"<([a-zA-Z0-9_:-]+)>")`) -/

/-- The character class `[a-zA-Z0-9_:-]` of the placeholder regex. -/
def isTokenChar (c : Char) : Bool :=
  c.isAlpha || c.isDigit || c == '_' || c == ':' || c == '-'

/-- Model of `PLACEHOLDER_REGEX.findall` on character lists.  At a `<`, the greedy
`[a-zA-Z0-9_:-]+` match is the maximal run of token characters; the match
succeeds iff that run is nonempty and followed by `>`.  The class excludes
`<` and `>`, so no backtracking case is lost, and after a failed attempt the
scan resumes one character further on.  The `Nat` argument is
structural-recursion fuel; every call site passes the scanned list's length,
which the scan never exhausts. -/
def findTokens : Nat → List Char → List (List Char)
  | _, [] => []
  | 0, _ => []
  | fuel + 1, c :: cs =>
    if c = '<' then
      match cs.dropWhile isTokenChar with
      | '>' :: rest =>
        if (cs.takeWhile isTokenChar).isEmpty then findTokens fuel cs
        else cs.takeWhile isTokenChar :: findTokens fuel rest
      | _ => findTokens fuel cs
    else findTokens fuel cs

/-- Model of `PLACEHOLDER_REGEX.findall(s)`: the captured groups, in order. -/
def findall (s : String) : List String :=
  (findTokens s.data.length s.data).map String.mk

/-! ## `WatchListener.dedupe_placeholders` -/

/-- The loop of `dedupe_placeholders`: `seen` is the set of lowercased keys
already emitted. -/
def dedupeAux (seen : List String) : List String → List String
  | [] => []
  | ph :: rest =>
    if pyLower ph ∈ seen then dedupeAux seen rest
    else ph :: dedupeAux (pyLower ph :: seen) rest

/-- Model of `WatchListener.dedupe_placeholders`: case-insensitive, order-preserving
deduplication keeping the first-seen casing. -/
def dedupe_placeholders (placeholders : List String) : List String :=
  dedupeAux [] placeholders

/-! ## Cooldown state (`defaultdict(default_time)` with `default_time = datetime.min`) -/

/-- Model of `datetime.min`, the default timestamp, mapped to second `0`. -/
def default_time : Nat := 0

/-- The `self.cooldowns` map: user id to last-successful-check timestamp. -/
abbrev CooldownState := List (Nat × Nat)

/-- Dict lookup with the `defaultdict` default (`default_time`). -/
def lookupTime (st : CooldownState) (u : Nat) : Nat :=
  match st.find? (fun p => p.1 == u) with
  | some p => p.2
  | none => default_time

/-- Dict assignment `self.cooldowns[user_id] = now`. -/
def setTime (st : CooldownState) (u : Nat) (t : Nat) : CooldownState :=
  (u, t) :: st.filter (fun p => p.1 != u)

/-- Model of `WatchListener.check_cooldown` as a pure state transition:
returns the boolean result and the updated map. -/
def check_cooldown (st : CooldownState) (user_id : Nat) (cooldown : Int) (now : Nat) :
    Bool × CooldownState :=
  if cooldown ≤ 0 then (true, st)
  else
    let last_use := lookupTime st user_id
    if (now : Int) - (last_use : Int) < cooldown then (false, st)
    else (true, setTime st user_id now)

/-! ## Remote resolver (`APIHelper.parse_placeholder_via_api`) -/

/-- The JSON response dict, restricted to the keys the code reads; a present
field holds the decoded value, `none` means the key is absent.
`hasOtherKeys` records whether the dict has any further keys, so that Python
truthiness of the dict (`if result:`) is modelled exactly. -/
structure RemoteResponse where
  success : Option Bool
  value : Option String
  error : Option String
  hasOtherKeys : Bool
deriving DecidableEq

/-- Python truthiness of the response dict: nonempty. -/
def RemoteResponse.truthy (r : RemoteResponse) : Bool :=
  r.success.isSome || r.value.isSome || r.error.isSome || r.hasOtherKeys

/-- The test `result and result.get("success")` of `parse_message_placeholders`. -/
def respSuccess : Option RemoteResponse → Bool
  | some r => r.truthy && r.success.getD false
  | none => false

/-- The expression `result.get("error", "Unknown error") if result else "Connection failed."`. -/
def failureMessage : Option RemoteResponse → String
  | some r => if r.truthy then r.error.getD "Unknown error" else "Connection failed."
  | none => "Connection failed."

/-- The GET request to `{api_url}/api/parse` built by
`parse_placeholder_via_api`: `params = {"placeholder": clean_placeholder}`
plus `params["player"] = player` only under `if player:`. -/
structure ApiRequest where
  placeholder : String
  player : Option String
deriving DecidableEq

/-- Request construction of `parse_placeholder_via_api`:
`clean_placeholder = placeholder.strip("%")`, and the `player` query
parameter is set only when `player` is truthy (non-`None` and nonempty). -/
def mkParseRequest (placeholder : String) (player : Option String) : ApiRequest :=
  { placeholder := String.mk (stripList (fun c => c == '%') placeholder.data)
    player :=
      match player with
      | some p => if p = "" then none else some p
      | none => none }

/-- Outcome of the HTTP round trip inside the `try:` block of
`parse_placeholder_via_api`. -/
inductive Transport where
  | ok (data : RemoteResponse)
  | clientError
  | malformedBody
  | otherError
deriving DecidableEq

/-- Model of `APIHelper.parse_placeholder_via_api`: builds the request; on a decoded
JSON body returns it, on `aiohttp.ClientError`, a body that fails to decode
as JSON, or any other exception returns `None` — it never raises. -/
def parse_placeholder_via_api (placeholder : String) (player : Option String)
    (t : Transport) : ApiRequest × Option RemoteResponse :=
  (mkParseRequest placeholder player,
   match t with
   | Transport.ok d => some d
   | Transport.clientError => none
   | Transport.malformedBody => none
   | Transport.otherError => none)

/-! ## Substitution engine (`WatchListener.parse_message_placeholders`) -/

/-- The configuration snapshot (`settings = await self.cog.config.all()`),
restricted to the keys the watch pipeline reads. -/
structure Settings where
  watch_mode : String
  watch_strict_mode : Bool
  watch_channels : List Nat
  watch_cooldown : Int
  watch_max_placeholders : Int
  watch_reply_type : String
  watch_show_errors : Bool
  watch_require_roles : Bool
  watch_delete_trigger : Bool
  allowed_roles : String
deriving DecidableEq

/-- The loop accumulator of `parse_message_placeholders`
(`parsed_content`, `success_count`, `error_count`, `errors`). -/
structure LoopState where
  parsed_content : String
  success_count : Nat
  error_count : Nat
  errors : List String
deriving DecidableEq

/-- The split `context, placeholder = ph.split(":", 1)` guarded by `":" in ph`;
returns `(context?, placeholder)`. -/
def splitColonAux : List Char → List Char × List Char
  | [] => ([], [])
  | c :: cs =>
    if c = ':' then ([], cs)
    else
      let p := splitColonAux cs
      (c :: p.1, p.2)

/-- Lines 88–92 of the loop: split the token at its first colon if any. -/
def tokenSplit (ph : String) : Option String × String :=
  if ph.data.contains ':' then
    let p := splitColonAux ph.data
    (some (String.mk p.1), String.mk p.2)
  else (none, ph)

/-- Lines 95–98: `player = None if (context and context.lower() == "server")
else context`. -/
def playerFor : Option String → Option String
  | none => none
  | some c => if c ≠ "" ∧ pyLower c = "server" then none else some c

/-- The `(placeholder, player)` pair passed to the resolver for a token. -/
def tokenCall (ph : String) : String × Option String :=
  ((tokenSplit ph).2, playerFor (tokenSplit ph).1)

/-- One iteration of the loop of `parse_message_placeholders` (lines 84–116).
Returns the updated accumulator (`none` models the `KeyError` raised by
`result["value"]` when the success branch finds no `value` key) and the
resolver call made. -/
def processOne (resolve : String → Option String → Option RemoteResponse)
    (se : Bool) (st : LoopState) (ph : String) :
    Option LoopState × (String × Option String) :=
  let call := tokenCall ph
  let result := resolve call.1 call.2
  if respSuccess result then
    match result.bind RemoteResponse.value with
    | some v =>
      (some { st with
                parsed_content := pyReplace st.parsed_content ("<" ++ ph ++ ">") v
                success_count := st.success_count + 1 }, call)
    | none => (none, call)
  else
    let error_msg := failureMessage result
    (some { parsed_content :=
              if se then
                pyReplace st.parsed_content ("<" ++ ph ++ ">") ("❌ *(" ++ error_msg ++ ")*")
              else st.parsed_content
            success_count := st.success_count
            error_count := st.error_count + 1
            errors := st.errors ++ ["`" ++ ("<" ++ ph ++ ">") ++ "`: " ++ error_msg] }, call)

/-- The failure-detail entry a token contributes, if any; it depends only on
the token and the resolver. -/
def entryFor (resolve : String → Option String → Option RemoteResponse)
    (ph : String) : Option String :=
  let call := tokenCall ph
  let result := resolve call.1 call.2
  if respSuccess result then none
  else some ("`" ++ ("<" ++ ph ++ ">") ++ "`: " ++ failureMessage result)

/-- The whole `for ph in placeholders:` loop; also returns the list of
resolver calls issued, in order. -/
def runLoop (resolve : String → Option String → Option RemoteResponse)
    (se : Bool) : LoopState → List String →
    Option LoopState × List (String × Option String)
  | st, [] => (some st, [])
  | st, ph :: rest =>
    match processOne resolve se st ph with
    | (some st2, call) =>
      let r := runLoop resolve se st2 rest
      (r.1, call :: r.2)
    | (none, call) => (none, [call])

/-- Result of `parse_message_placeholders`: the top-level error dict, a
propagated exception, or the report dict. -/
inductive ParseOutcome where
  | error (msg : String)
  | exn
  | report (st : LoopState)
deriving DecidableEq

/-- Model of `WatchListener.parse_message_placeholders`, with the resolver call list
made explicit (second component). -/
def parse_message_placeholders (resolve : String → Option String → Option RemoteResponse)
    (message_content : String) (settings : Settings) :
    ParseOutcome × List (String × Option String) :=
  let placeholders := dedupe_placeholders (findall message_content)
  if settings.watch_max_placeholders > 0 ∧
      (placeholders.length : Int) > settings.watch_max_placeholders then
    (ParseOutcome.error ("Too many placeholders detected (" ++ toString placeholders.length
        ++ "). Maximum allowed: " ++ toString settings.watch_max_placeholders), [])
  else if placeholders = [] then
    (ParseOutcome.error "No placeholders found in message. Use format: `<context:placeholder>`", [])
  else
    let r := runLoop resolve settings.watch_show_errors
      { parsed_content := message_content, success_count := 0, error_count := 0, errors := [] }
      placeholders
    (match r.1 with
     | some st => ParseOutcome.report st
     | none => ParseOutcome.exn, r.2)

/-! ## Roles (`RoleHelper.parse_allowed_roles`) and the access gate -/

/-- An entry of the parsed `allowed_roles` list: Python stores either an
`int` or a `str`. -/
inductive RoleRef where
  | byId (id : Nat)
  | byName (name : String)
deriving DecidableEq

/-- Model of `RoleHelper.parse_allowed_roles`. -/
def parse_allowed_roles (roles_string : String) : List RoleRef :=
  if roles_string = "" ∨ pyStrip roles_string = "" then []
  else
    (splitComma roles_string.data).map fun r =>
      let role := String.mk (stripList Char.isWhitespace r)
      if pyIsDigit role then RoleRef.byId (strToNat role) else RoleRef.byName role

/-- The role-matching loop of `should_process_watch` (lines 150–159). -/
def hasAllowedRole (allowed : List RoleRef) (roleIds : List Nat)
    (roleNames : List String) : Bool :=
  allowed.any fun a =>
    match a with
    | RoleRef.byId i => roleIds.contains i
    | RoleRef.byName n => (roleNames.map pyLower).contains (pyLower n)

/-- The fields of the incoming `discord.Message` the pipeline reads. -/
structure MessageIn where
  authorBot : Bool
  guildPresent : Bool
  content : String
  channelId : Nat
  authorId : Nat
  memberFound : Bool
  memberRoleIds : List Nat
  memberRoleNames : List String
deriving DecidableEq

/-- The role-requirement stage of `should_process_watch` (lines 138–162):
`some rej` is an early rejection, `none` means fall through. -/
def roleStageResult (msg : MessageIn) (settings : Settings) : Option (Bool × String) :=
  if settings.watch_require_roles ∧ msg.guildPresent then
    if settings.allowed_roles ≠ "" ∧ pyStrip settings.allowed_roles ≠ "" then
      if ¬ msg.memberFound then some (false, "Member not found")
      else if ¬ hasAllowedRole (parse_allowed_roles settings.allowed_roles)
          msg.memberRoleIds msg.memberRoleNames then
        some (false, "Missing required role")
      else none
    else none
  else none

/-- The tail of `should_process_watch` after the mode/channel checks:
role stage, then the cooldown check-and-update. -/
def roleAndCooldownStage (msg : MessageIn) (settings : Settings)
    (st : CooldownState) (now : Nat) : (Bool × String) × CooldownState :=
  match roleStageResult msg settings with
  | some rej => (rej, st)
  | none =>
    let r := check_cooldown st msg.authorId settings.watch_cooldown now
    if ¬ r.1 then ((false, "User on cooldown"), r.2)
    else ((true, "OK"), r.2)

/-- Model of `WatchListener.should_process_watch` as a pure state transition. -/
def should_process_watch (msg : MessageIn) (settings : Settings)
    (st : CooldownState) (now : Nat) : (Bool × String) × CooldownState :=
  if settings.watch_mode = "disabled" then ((false, "Watch mode disabled"), st)
  else if settings.watch_mode = "channels" ∧ msg.channelId ∉ settings.watch_channels then
    ((false, "Channel not in watch list"), st)
  else roleAndCooldownStage msg settings st now

/-! ## Watch orchestrator (`WatchListener.on_message`) -/

/-- The chat-platform side effects `on_message` can perform, in order. -/
inductive WatchAction where
  | replyText (text : String)
  | sendText (text : String)
  | replyEmbed (parsed : String) (succ : Nat) (errs : Nat) (errorField : Option String)
  | threadEmbed (parsed : String) (succ : Nat) (errs : Nat) (errorField : Option String)
  | deleteTrigger
deriving DecidableEq

/-- The strict-mode trigger marker. -/
def triggerMarker : String := "||papi||"

/-- The embed "Errors" field: first 5 entries, plus a truncation note. -/
def truncatedErrors (errors : List String) : String :=
  let base := String.intercalate "\n" (errors.take 5)
  if errors.length > 5 then
    base ++ "\n*...and " ++ toString (errors.length - 5) ++ " more*"
  else base

/-- Model of `WatchListener.on_message` as a pure function from the message, the
settings snapshot, the cooldown state and the clock to the emitted
chat actions and the new cooldown state. -/
def on_message (resolve : String → Option String → Option RemoteResponse)
    (msg : MessageIn) (settings : Settings) (st : CooldownState) (now : Nat) :
    List WatchAction × CooldownState :=
  if msg.authorBot then ([], st)
  else if ¬ msg.guildPresent then ([], st)
  else if msg.content = "" then ([], st)
  else
    let gate := should_process_watch msg settings st now
    let should_process := gate.1.1
    let st2 := gate.2
    if settings.watch_strict_mode ∧ ¬ pyStartsWith msg.content triggerMarker then ([], st2)
    else
      let content :=
        if settings.watch_strict_mode then pyLStrip (pyDrop msg.content triggerMarker.data.length)
        else msg.content
      if ¬ should_process then ([], st2)
      else
        let found := findall msg.content
        if found = [] then ([], st2)
        else
          let unique := dedupe_placeholders found
          if settings.watch_max_placeholders > 0 ∧
              (unique.length : Int) > settings.watch_max_placeholders then
            (if settings.watch_show_errors then
               [WatchAction.replyText ("❌ Too many placeholders (" ++ toString unique.length
                  ++ "/" ++ toString settings.watch_max_placeholders ++ ")")]
             else [], st2)
          else
            match (parse_message_placeholders resolve content settings).1 with
            | ParseOutcome.exn =>
              ([WatchAction.replyText "❌ An error occurred while processing your placeholders."], st2)
            | ParseOutcome.error e =>
              (if settings.watch_reply_type = "reply" then [WatchAction.replyText ("❌ " ++ e)]
               else [WatchAction.sendText ("❌ " ++ e)], st2)
            | ParseOutcome.report r =>
              let errField :=
                if ¬ r.errors.isEmpty ∧ settings.watch_show_errors then
                  some (truncatedErrors r.errors)
                else none
              let main :=
                if settings.watch_reply_type = "thread" then
                  WatchAction.threadEmbed r.parsed_content r.success_count r.error_count errField
                else
                  WatchAction.replyEmbed r.parsed_content r.success_count r.error_count errField
              (main :: (if settings.watch_delete_trigger then [WatchAction.deleteTrigger] else []), st2)

/-! ## Lemmas about `dedupe_placeholders` -/

theorem dedupeAux_sublist (l : List String) : ∀ seen, (dedupeAux seen l).Sublist l := by
  induction l with
  | nil => intro seen; simp [dedupeAux]
  | cons ph rest ih =>
    intro seen
    by_cases h : pyLower ph ∈ seen
    · simpa [dedupeAux, h] using (ih seen).cons ph
    · simpa [dedupeAux, h] using (ih (pyLower ph :: seen)).cons₂ ph

theorem mem_dedupeAux_not_seen (l : List String) :
    ∀ seen y, y ∈ dedupeAux seen l → pyLower y ∉ seen := by
  induction l with
  | nil => intro seen y hy; simp [dedupeAux] at hy
  | cons ph rest ih =>
    intro seen y hy
    by_cases h : pyLower ph ∈ seen
    · exact ih seen y (by simpa [dedupeAux, h] using hy)
    · simp only [dedupeAux, h, if_neg, ite_false, List.mem_cons] at hy
      rcases hy with rfl | hy
      · exact h
      · have := ih (pyLower ph :: seen) y hy
        intro hs
        exact this (List.mem_cons_of_mem _ hs)

theorem dedupeAux_pairwise (l : List String) :
    ∀ seen, List.Pairwise (fun a b => pyLower a ≠ pyLower b) (dedupeAux seen l) := by
  induction l with
  | nil => intro seen; simp [dedupeAux]
  | cons ph rest ih =>
    intro seen
    by_cases h : pyLower ph ∈ seen
    · simpa [dedupeAux, h] using ih seen
    · simp only [dedupeAux, h, ite_false]
      refine List.pairwise_cons.mpr ⟨?_, ih (pyLower ph :: seen)⟩
      intro y hy
      have := mem_dedupeAux_not_seen rest (pyLower ph :: seen) y hy
      intro hEq
      exact this (by rw [← hEq]; exact List.mem_cons_self _ _)

theorem dedupeAux_eq_self (l : List String) :
    ∀ seen, (∀ y ∈ l, pyLower y ∉ seen) →
    List.Pairwise (fun a b => pyLower a ≠ pyLower b) l →
    dedupeAux seen l = l := by
  induction l with
  | nil => intro seen _ _; simp [dedupeAux]
  | cons ph rest ih =>
    intro seen hseen hpw
    have hph : pyLower ph ∉ seen := hseen ph (List.mem_cons_self _ _)
    rcases List.pairwise_cons.mp hpw with ⟨hhead, htail⟩
    simp only [dedupeAux, hph, ite_false]
    refine congrArg (ph :: ·) (ih (pyLower ph :: seen) ?_ htail)
    intro y hy
    simp only [List.mem_cons]
    rintro (hEq | hs)
    · exact hhead y hy hEq.symm
    · exact hseen y (List.mem_cons_of_mem _ hy) hs

theorem dedupeAux_complete (l : List String) :
    ∀ seen x, x ∈ l →
    pyLower x ∈ seen ∨ ∃ y ∈ dedupeAux seen l, pyLower y = pyLower x := by
  induction l with
  | nil => intro seen x hx; simp at hx
  | cons ph rest ih =>
    intro seen x hx
    by_cases h : pyLower ph ∈ seen
    · simp only [dedupeAux, h, ite_true]
      rcases List.mem_cons.mp hx with rfl | hx'
      · exact Or.inl h
      · exact ih seen x hx'
    · simp only [dedupeAux, h, ite_false]
      rcases List.mem_cons.mp hx with rfl | hx'
      · exact Or.inr ⟨x, List.mem_cons_self _ _, rfl⟩
      · rcases ih (pyLower ph :: seen) x hx' with hs | ⟨y, hy, hEq⟩
        · rcases List.mem_cons.mp hs with hEq | hs'
          · exact Or.inr ⟨ph, List.mem_cons_self _ _, hEq.symm⟩
          · exact Or.inl hs'
        · exact Or.inr ⟨y, List.mem_cons_of_mem _ hy, hEq⟩

theorem dedupeAux_find? (l : List String) :
    ∀ seen y, y ∈ dedupeAux seen l →
    l.find? (fun z => pyLower z == pyLower y) = some y := by
  induction l with
  | nil => intro seen y hy; simp [dedupeAux] at hy
  | cons ph rest ih =>
    intro seen y hy
    by_cases h : pyLower ph ∈ seen
    · have hy' : y ∈ dedupeAux seen rest := by simpa [dedupeAux, h] using hy
      have hne : pyLower ph ≠ pyLower y := by
        intro hEq
        exact mem_dedupeAux_not_seen rest seen y hy' (hEq ▸ h)
      rw [List.find?_cons_of_neg _ (by simp [hne]), ih seen y hy']
    · simp only [dedupeAux, h, ite_false, List.mem_cons] at hy
      rcases hy with rfl | hy'
      · rw [List.find?_cons_of_pos _ (by simp)]
      · have hnot := mem_dedupeAux_not_seen rest (pyLower ph :: seen) y hy'
        have hne : pyLower ph ≠ pyLower y := by
          intro hEq
          exact hnot (by rw [← hEq]; exact List.mem_cons_self _ _)
        rw [List.find?_cons_of_neg _ (by simp [hne]), ih (pyLower ph :: seen) y hy']

/-- C6: `dedupe_placeholders` is idempotent, deduplicates case-insensitively
on the full raw token, preserves first-seen order (its output is a sublist of
its input) and first-seen casing (each output element is the first input
element with its lowercase key), and `["Server:Online", "server:online"]`
yields `["Server:Online"]`. -/
theorem claim_C6 (l : List String) :
    dedupe_placeholders (dedupe_placeholders l) = dedupe_placeholders l ∧
    (dedupe_placeholders l).Sublist l ∧
    List.Pairwise (fun a b => pyLower a ≠ pyLower b) (dedupe_placeholders l) ∧
    (∀ x ∈ l, ∃ y ∈ dedupe_placeholders l, pyLower y = pyLower x) ∧
    (∀ y ∈ dedupe_placeholders l, l.find? (fun z => pyLower z == pyLower y) = some y) ∧
    dedupe_placeholders ["Server:Online", "server:online"] = ["Server:Online"] := by
  refine ⟨?_, dedupeAux_sublist l [], dedupeAux_pairwise l [],
    ?_, fun y hy => dedupeAux_find? l [] y hy, by decide⟩
  · exact dedupeAux_eq_self (dedupe_placeholders l) [] (by simp) (dedupeAux_pairwise l [])
  · intro x hx
    rcases dedupeAux_complete l [] x hx with hs | h
    · simp at hs
    · exact h

/-- Witness for C6 at a concrete list, discharging the membership
hypotheses. -/
theorem claim_C6_witness :
    (∃ y ∈ dedupe_placeholders ["Server:Online", "server:online", "other"],
        pyLower y = pyLower "server:online") ∧
    dedupe_placeholders ["Server:Online", "server:online"] = ["Server:Online"] := by
  refine ⟨?_, (claim_C6 []).2.2.2.2.2⟩
  have h := (claim_C6 ["Server:Online", "server:online", "other"]).2.2.2.1
  exact h "server:online" (by decide)

/-! ## Lemmas about `check_cooldown` -/

theorem lookupTime_setTime (st : CooldownState) (u t : Nat) :
    lookupTime (setTime st u t) u = t := by
  simp [lookupTime, setTime, List.find?_cons_of_pos]

theorem lookupTime_absent (st : CooldownState) (u : Nat)
    (h : ∀ p ∈ st, p.1 ≠ u) : lookupTime st u = default_time := by
  have : st.find? (fun p => p.1 == u) = none := by
    rw [List.find?_eq_none]
    intro p hp
    simp [h p hp]
  simp [lookupTime, this]

/-- C5: `check_cooldown` with a non-positive cooldown returns `true` and
leaves the state untouched; with a positive cooldown it returns `false` and
leaves the state unchanged when the elapsed time since the stored timestamp
(defaulting to `default_time`, the far past, for an absent user) is strictly
below the cooldown, and otherwise stores `now` for the user and returns
`true`; a user absent from the state reads as `default_time`, so the first
check passes whenever the cooldown does not exceed the whole time since
`datetime.min`. -/
theorem claim_C5 (st : CooldownState) (u : Nat) (cooldown : Int) (now : Nat) :
    (cooldown ≤ 0 → check_cooldown st u cooldown now = (true, st)) ∧
    (0 < cooldown → (now : Int) - (lookupTime st u : Int) < cooldown →
        check_cooldown st u cooldown now = (false, st)) ∧
    (0 < cooldown → cooldown ≤ (now : Int) - (lookupTime st u : Int) →
        check_cooldown st u cooldown now = (true, setTime st u now) ∧
        lookupTime (check_cooldown st u cooldown now).2 u = now) ∧
    ((∀ p ∈ st, p.1 ≠ u) → lookupTime st u = default_time) ∧
    ((∀ p ∈ st, p.1 ≠ u) → 0 < cooldown → cooldown ≤ (now : Int) →
        (check_cooldown st u cooldown now).1 = true) := by
  refine ⟨?_, ?_, ?_, lookupTime_absent st u, ?_⟩
  · intro h; simp [check_cooldown, h]
  · intro h1 h2
    have hn : ¬ cooldown ≤ 0 := by omega
    simp [check_cooldown, hn, h2]
  · intro h1 h2
    have hn : ¬ cooldown ≤ 0 := by omega
    have hge : ¬ ((now : Int) - (lookupTime st u : Int) < cooldown) := by omega
    constructor
    · simp [check_cooldown, hn, hge]
    · simp [check_cooldown, hn, hge, lookupTime_setTime]
  · intro habs h1 h2
    have hn : ¬ cooldown ≤ 0 := by omega
    have h0 : lookupTime st u = default_time := lookupTime_absent st u habs
    have hge : ¬ ((now : Int) - (lookupTime st u : Int) < cooldown) := by
      rw [h0]; simp [default_time]; omega
    simp [check_cooldown, hn, hge]

/-- Witness for C5: concrete rejection within the window, acceptance with a
timestamp update, and a first check that passes for an absent user. -/
theorem claim_C5_witness :
    check_cooldown [(1, 10)] 1 5 12 = (false, [(1, 10)]) ∧
    check_cooldown [] 7 5 100 = (true, [(7, 100)]) ∧
    (check_cooldown [] 7 5 100).1 = true ∧
    check_cooldown [(1, 10)] 1 0 12 = (true, [(1, 10)]) := by
  refine ⟨(claim_C5 [(1, 10)] 1 5 12).2.1 (by decide) (by decide),
    ((claim_C5 [] 7 5 100).2.2.1 (by decide) (by decide)).1,
    (claim_C5 [] 7 5 100).2.2.2.2 (by simp) (by decide) (by decide),
    (claim_C5 [(1, 10)] 1 0 12).1 (by decide)⟩

/-! ## Lemmas about token splitting and `%`-stripping -/

theorem dropWhile_head_not (p : Char → Bool) :
    ∀ (l : List Char) (x : Char), (List.dropWhile p l).head? = some x → p x = false := by
  intro l
  induction l with
  | nil => intro x h; simp [List.dropWhile] at h
  | cons c cs ih =>
    intro x h
    by_cases hc : p c
    · exact ih x (by simpa [List.dropWhile, hc] using h)
    · simp only [List.dropWhile, hc, Bool.false_eq_true, ite_false, List.head?_cons,
        Option.some.injEq] at h
      rw [← h]
      exact Bool.not_eq_true _ ▸ (by simpa using hc)

theorem stripList_eq (ch : Char) (l : List Char) :
    ∃ n m, l = List.replicate n ch ++ stripList (fun c => c == ch) l ++ List.replicate m ch ∧
      (stripList (fun c => c == ch) l).head? ≠ some ch ∧
      (stripList (fun c => c == ch) l).getLast? ≠ some ch := by
  classical
  set pc : Char → Bool := fun c => c == ch with hpc
  set t := l.dropWhile pc with ht
  set d := t.reverse.dropWhile pc with hd
  have hstrip : stripList pc l = d.reverse := rfl
  have htake1 : l.takeWhile pc = List.replicate (l.takeWhile pc).length ch :=
    List.eq_replicate_of_mem (fun b hb => by
      have := List.mem_takeWhile_imp hb
      simpa [hpc] using this)
  have hl : l = List.replicate (l.takeWhile pc).length ch ++ t := by
    conv_lhs => rw [← List.takeWhile_append_dropWhile (p := pc) (l := l)]
    rw [← htake1, ht]
  have htake2 : t.reverse.takeWhile pc = List.replicate (t.reverse.takeWhile pc).length ch :=
    List.eq_replicate_of_mem (fun b hb => by
      have := List.mem_takeWhile_imp hb
      simpa [hpc] using this)
  have ht2 : t = d.reverse ++ List.replicate (t.reverse.takeWhile pc).length ch := by
    have : t.reverse = t.reverse.takeWhile pc ++ d :=
      (List.takeWhile_append_dropWhile (p := pc) (l := t.reverse)).symm
    calc t = t.reverse.reverse := (List.reverse_reverse t).symm
    _ = (t.reverse.takeWhile pc ++ d).reverse := by rw [← this]
    _ = d.reverse ++ (t.reverse.takeWhile pc).reverse := by rw [List.reverse_append]
    _ = d.reverse ++ List.replicate (t.reverse.takeWhile pc).length ch := by
        rw [htake2, List.reverse_replicate]
        simp
  refine ⟨(l.takeWhile pc).length, (t.reverse.takeWhile pc).length, ?_, ?_, ?_⟩
  · rw [hstrip, List.append_assoc, ← ht2, ← hl]
  · rw [hstrip]
    intro hhead
    cases hdr : d.reverse with
    | nil => rw [hdr] at hhead; simp at hhead
    | cons a as =>
      rw [hdr] at hhead
      simp only [List.head?_cons, Option.some.injEq] at hhead
      have hth : t.head? = some a := by
        rw [ht2, hdr]; simp
      rw [ht] at hth
      have := dropWhile_head_not pc l a hth
      rw [hhead] at this
      simp [hpc] at this
  · rw [hstrip]
    intro hlast
    rw [List.getLast?_reverse] at hlast
    rw [hd] at hlast
    have := dropWhile_head_not pc t.reverse ch hlast
    simp [hpc] at this

theorem splitColonAux_spec :
    ∀ l : List Char, ':' ∈ l →
    l = (splitColonAux l).1 ++ ':' :: (splitColonAux l).2 ∧ ':' ∉ (splitColonAux l).1 := by
  intro l
  induction l with
  | nil => intro h; simp at h
  | cons c cs ih =>
    intro h
    by_cases hc : c = ':'
    · subst hc
      simp [splitColonAux]
    · have hmem : ':' ∈ cs := by
        rcases List.mem_cons.mp h with hEq | hm
        · exact absurd hEq.symm hc
        · exact hm
      rcases ih hmem with ⟨h1, h2⟩
      constructor
      · simp only [splitColonAux, hc, ite_false]
        exact congrArg (c :: ·) h1
      · simp only [splitColonAux, hc, ite_false]
        intro hm
        rcases List.mem_cons.mp hm with hEq | hm'
        · exact hc hEq.symm
        · exact h2 hm'

/-- C8: a token with no colon has an absent subject and its whole text as
key; a token with a colon splits at the first colon (the subject contains no
colon, the key is everything after that colon); a nonempty subject equal to
`"server"` case-insensitively is normalized to an absent player; the request
sends the key with leading and trailing `%` stripped, and omits the `player`
query parameter entirely when the subject is absent. -/
theorem claim_C8 (ph k : String) (p : Option String) (t : Transport) :
    (ph.data.contains ':' = false → tokenSplit ph = (none, ph)) ∧
    (ph.data.contains ':' = true →
      ∃ a b : String, tokenSplit ph = (some a, b) ∧
        ph.data = a.data ++ ':' :: b.data ∧ a.data.contains ':' = false) ∧
    (∀ c : String, c ≠ "" → pyLower c = "server" → playerFor (some c) = none) ∧
    (∃ n m, k.data = List.replicate n '%'
        ++ (parse_placeholder_via_api k p t).1.placeholder.data ++ List.replicate m '%' ∧
      (parse_placeholder_via_api k p t).1.placeholder.data.head? ≠ some '%' ∧
      (parse_placeholder_via_api k p t).1.placeholder.data.getLast? ≠ some '%') ∧
    (parse_placeholder_via_api k none t).1.player = none := by
  refine ⟨?_, ?_, ?_, ?_, rfl⟩
  · intro h
    have h' : ':' ∉ ph.data := by
      intro hm
      have hc : ph.data.contains ':' = true :=
        (by simp [List.contains] : ph.data.contains ':' = true ↔ ':' ∈ ph.data).mpr hm
      rw [h] at hc
      exact Bool.false_ne_true hc
    simp [tokenSplit, h']
  · intro h
    have hmem : ':' ∈ ph.data := by
      have := (by simp [List.contains] : ph.data.contains ':' = true ↔ ':' ∈ ph.data)
      exact this.mp h
    rcases splitColonAux_spec ph.data hmem with ⟨h1, h2⟩
    refine ⟨String.mk (splitColonAux ph.data).1, String.mk (splitColonAux ph.data).2, ?_, ?_, ?_⟩
    · simp [tokenSplit, hmem]
    · exact h1
    · simp [List.contains]
      intro hm
      exact h2 (by simpa using hm)
  · intro c hne hlow
    simp [playerFor, hne, hlow]
  · have := stripList_eq '%' k.data
    simpa [parse_placeholder_via_api, mkParseRequest] using this

/-- Witness for C8 at concrete inputs. -/
theorem claim_C8_witness :
    tokenSplit "nocolon" = (none, "nocolon") ∧
    (∃ a b : String, tokenSplit "a:b:c" = (some a, b) ∧
      "a:b:c".data = a.data ++ ':' :: b.data ∧ a.data.contains ':' = false) ∧
    playerFor (some "Server") = none ∧
    (parse_placeholder_via_api "%x%" none Transport.clientError).1.player = none := by
  exact ⟨(claim_C8 "nocolon" "%x%" none Transport.clientError).1 (by decide),
    (claim_C8 "a:b:c" "%x%" none Transport.clientError).2.1 (by decide),
    (claim_C8 "a:b:c" "%x%" none Transport.clientError).2.2.1 "Server" (by decide) (by decide),
    (claim_C8 "a:b:c" "%x%" none Transport.clientError).2.2.2.2⟩

/-! ## Lemmas about the substitution loop -/

theorem processOne_success (resolve : String → Option String → Option RemoteResponse)
    (se : Bool) (st : LoopState) (ph : String) (v : String)
    (h : respSuccess (resolve (tokenCall ph).1 (tokenCall ph).2) = true)
    (hv : (resolve (tokenCall ph).1 (tokenCall ph).2).bind RemoteResponse.value = some v) :
    processOne resolve se st ph =
      (some { parsed_content := pyReplace st.parsed_content ("<" ++ ph ++ ">") v
              success_count := st.success_count + 1
              error_count := st.error_count
              errors := st.errors }, tokenCall ph) := by
  simp [processOne, h, hv]

theorem processOne_exn (resolve : String → Option String → Option RemoteResponse)
    (se : Bool) (st : LoopState) (ph : String)
    (h : respSuccess (resolve (tokenCall ph).1 (tokenCall ph).2) = true)
    (hv : (resolve (tokenCall ph).1 (tokenCall ph).2).bind RemoteResponse.value = none) :
    processOne resolve se st ph = (none, tokenCall ph) := by
  simp [processOne, h, hv]

theorem processOne_fail (resolve : String → Option String → Option RemoteResponse)
    (se : Bool) (st : LoopState) (ph : String)
    (h : respSuccess (resolve (tokenCall ph).1 (tokenCall ph).2) = false) :
    processOne resolve se st ph =
      (some { parsed_content :=
                if se then
                  pyReplace st.parsed_content ("<" ++ ph ++ ">")
                    ("❌ *(" ++ failureMessage (resolve (tokenCall ph).1 (tokenCall ph).2) ++ ")*")
                else st.parsed_content
              success_count := st.success_count
              error_count := st.error_count + 1
              errors := st.errors ++ ["`" ++ ("<" ++ ph ++ ">") ++ "`: "
                ++ failureMessage (resolve (tokenCall ph).1 (tokenCall ph).2)] },
       tokenCall ph) := by
  simp [processOne, h]

theorem entryFor_none (resolve : String → Option String → Option RemoteResponse) (ph : String)
    (h : respSuccess (resolve (tokenCall ph).1 (tokenCall ph).2) = true) :
    entryFor resolve ph = none := by
  simp [entryFor, h]

theorem entryFor_some (resolve : String → Option String → Option RemoteResponse) (ph : String)
    (h : respSuccess (resolve (tokenCall ph).1 (tokenCall ph).2) = false) :
    entryFor resolve ph = some ("`" ++ ("<" ++ ph ++ ">") ++ "`: "
      ++ failureMessage (resolve (tokenCall ph).1 (tokenCall ph).2)) := by
  simp [entryFor, h]

theorem runLoop_cons_eq (resolve : String → Option String → Option RemoteResponse)
    (se : Bool) (st : LoopState) (ph : String) (rest : List String)
    (st2 : LoopState) (call : String × Option String)
    (h : processOne resolve se st ph = (some st2, call)) :
    runLoop resolve se st (ph :: rest) =
      ((runLoop resolve se st2 rest).1, call :: (runLoop resolve se st2 rest).2) := by
  rw [runLoop, h]

theorem runLoop_cons_none (resolve : String → Option String → Option RemoteResponse)
    (se : Bool) (st : LoopState) (ph : String) (rest : List String)
    (call : String × Option String)
    (h : processOne resolve se st ph = (none, call)) :
    runLoop resolve se st (ph :: rest) = (none, [call]) := by
  rw [runLoop, h]

theorem runLoop_spec (resolve : String → Option String → Option RemoteResponse) (se : Bool) :
    ∀ (phs : List String) (st st2 : LoopState) (calls : List (String × Option String)),
    runLoop resolve se st phs = (some st2, calls) →
    st2.success_count + st2.error_count = st.success_count + st.error_count + phs.length ∧
    st2.errors = st.errors ++ phs.filterMap (entryFor resolve) ∧
    calls = phs.map tokenCall ∧
    (st.errors.length = st.error_count → st2.errors.length = st2.error_count) := by
  intro phs
  induction phs with
  | nil =>
    intro st st2 calls h
    rw [runLoop] at h
    injection h with h1 h2
    injection h1 with h1
    subst h1; subst h2
    simp
  | cons ph rest ih =>
    intro st st2 calls h
    by_cases hs : respSuccess (resolve (tokenCall ph).1 (tokenCall ph).2) = true
    · cases hv : (resolve (tokenCall ph).1 (tokenCall ph).2).bind RemoteResponse.value with
      | some v =>
        rw [runLoop_cons_eq resolve se st ph rest _ _
          (processOne_success resolve se st ph v hs hv)] at h
        rcases hrl : runLoop resolve se
            { parsed_content := pyReplace st.parsed_content ("<" ++ ph ++ ">") v
              success_count := st.success_count + 1
              error_count := st.error_count
              errors := st.errors } rest with ⟨r1, r2⟩
        rw [hrl] at h
        injection h with h1 h2
        subst h1
        rcases ih _ st2 r2 hrl with ⟨ih1, ih2, ih3, ih4⟩
        refine ⟨by simp at ih1 ⊢; omega, ?_, ?_, ?_⟩
        · rw [ih2]
          simp [List.filterMap_cons, entryFor_none resolve ph hs]
        · rw [← h2, ih3]
          simp
        · intro hlen
          exact ih4 (by simpa using hlen)
      | none =>
        rw [runLoop_cons_none resolve se st ph rest _
          (processOne_exn resolve se st ph hs hv)] at h
        simp at h
    · have hs' : respSuccess (resolve (tokenCall ph).1 (tokenCall ph).2) = false := by
        simpa using hs
      rw [runLoop_cons_eq resolve se st ph rest _ _
        (processOne_fail resolve se st ph hs')] at h
      rcases hrl : runLoop resolve se
          { parsed_content :=
              if se then
                pyReplace st.parsed_content ("<" ++ ph ++ ">")
                  ("❌ *(" ++ failureMessage (resolve (tokenCall ph).1 (tokenCall ph).2) ++ ")*")
              else st.parsed_content
            success_count := st.success_count
            error_count := st.error_count + 1
            errors := st.errors ++ ["`" ++ ("<" ++ ph ++ ">") ++ "`: "
              ++ failureMessage (resolve (tokenCall ph).1 (tokenCall ph).2)] }
          rest with ⟨r1, r2⟩
      rw [hrl] at h
      injection h with h1 h2
      subst h1
      rcases ih _ st2 r2 hrl with ⟨ih1, ih2, ih3, ih4⟩
      refine ⟨by simp at ih1 ⊢; omega, ?_, ?_, ?_⟩
      · rw [ih2]
        simp [List.filterMap_cons, entryFor_some resolve ph hs']
      · rw [← h2, ih3]
        simp
      · intro hlen
        refine ih4 ?_
        simp
        omega

theorem runLoop_total (resolve : String → Option String → Option RemoteResponse) (se : Bool)
    (hwf : ∀ k p r, resolve k p = some r → respSuccess (some r) = true → r.value.isSome = true) :
    ∀ (phs : List String) (st : LoopState),
    ∃ st2, (runLoop resolve se st phs).1 = some st2 := by
  intro phs
  induction phs with
  | nil => intro st; exact ⟨st, rfl⟩
  | cons ph rest ih =>
    intro st
    by_cases hs : respSuccess (resolve (tokenCall ph).1 (tokenCall ph).2) = true
    · cases hres : resolve (tokenCall ph).1 (tokenCall ph).2 with
      | none => rw [hres] at hs; simp [respSuccess] at hs
      | some r =>
        have hv : r.value.isSome = true := hwf _ _ r hres (hres ▸ hs)
        rcases Option.isSome_iff_exists.mp hv with ⟨v, hv'⟩
        have hbind : (resolve (tokenCall ph).1 (tokenCall ph).2).bind RemoteResponse.value
            = some v := by rw [hres]; simpa using hv'
        rw [runLoop_cons_eq resolve se st ph rest _ _
          (processOne_success resolve se st ph v hs hbind)]
        exact ih _
    · have hs' : respSuccess (resolve (tokenCall ph).1 (tokenCall ph).2) = false := by
        simpa using hs
      rw [runLoop_cons_eq resolve se st ph rest _ _
        (processOne_fail resolve se st ph hs')]
      exact ih _

/-- C2: for each resolved token, a `Success{value}` replaces every literal
occurrence of the token's exact raw substring `<ph>` with the value and
increments the success count; a `Failure` replaces the raw substring with
the inline error marker when `showErrors` is on and leaves the text
untouched when it is off, and in both failure cases appends the
"token: reason" entry to the failure details and increments the failure
count. -/
theorem claim_C2 (resolve : String → Option String → Option RemoteResponse)
    (se : Bool) (st : LoopState) (ph : String) :
    (∀ v, respSuccess (resolve (tokenCall ph).1 (tokenCall ph).2) = true →
      (resolve (tokenCall ph).1 (tokenCall ph).2).bind RemoteResponse.value = some v →
      processOne resolve se st ph =
        (some { parsed_content := pyReplace st.parsed_content ("<" ++ ph ++ ">") v
                success_count := st.success_count + 1
                error_count := st.error_count
                errors := st.errors }, tokenCall ph)) ∧
    (respSuccess (resolve (tokenCall ph).1 (tokenCall ph).2) = false →
      processOne resolve se st ph =
        (some { parsed_content :=
                  if se then
                    pyReplace st.parsed_content ("<" ++ ph ++ ">")
                      ("❌ *(" ++ failureMessage (resolve (tokenCall ph).1 (tokenCall ph).2) ++ ")*")
                  else st.parsed_content
                success_count := st.success_count
                error_count := st.error_count + 1
                errors := st.errors ++ ["`" ++ ("<" ++ ph ++ ">") ++ "`: "
                  ++ failureMessage (resolve (tokenCall ph).1 (tokenCall ph).2)] },
         tokenCall ph)) :=
  ⟨fun v h hv => processOne_success resolve se st ph v h hv,
   fun h => processOne_fail resolve se st ph h⟩

/-- Witness for C2: a concrete success replaces the raw token, a concrete
failure with `showErrors` off leaves the text untouched but still records
the failure entry. -/
theorem claim_C2_witness :
    processOne (fun _ _ => some ⟨some true, some "VAL", none, false⟩) true
        ⟨"x <ok> y", 0, 0, []⟩ "ok" =
      (some ⟨"x VAL y", 1, 0, []⟩, ("ok", none)) ∧
    processOne (fun _ _ => some ⟨some false, none, some "boom", false⟩) false
        ⟨"x <bad> y", 3, 1, ["old"]⟩ "bad" =
      (some ⟨"x <bad> y", 3, 2, ["old", "`<bad>`: boom"]⟩, ("bad", none)) := by
  constructor
  · rw [(claim_C2 (fun _ _ => some ⟨some true, some "VAL", none, false⟩) true
      ⟨"x <ok> y", 0, 0, []⟩ "ok").1 "VAL" (by decide) (by decide)]
    decide
  · rw [(claim_C2 (fun _ _ => some ⟨some false, none, some "boom", false⟩) false
      ⟨"x <bad> y", 3, 1, ["old"]⟩ "bad").2 (by decide)]
    decide

/-- C3: whenever the engine returns a report, success count plus failure
count equals the number of unique (case-insensitively deduplicated) tokens
processed, and the failure details have exactly failure-count entries, in
resolution order (one entry per failing token, in the order of the
deduplicated token list). -/
theorem claim_C3 (resolve : String → Option String → Option RemoteResponse)
    (content : String) (settings : Settings) (st : LoopState)
    (calls : List (String × Option String))
    (h : parse_message_placeholders resolve content settings = (ParseOutcome.report st, calls)) :
    st.success_count + st.error_count = (dedupe_placeholders (findall content)).length ∧
    st.errors.length = st.error_count ∧
    st.errors = (dedupe_placeholders (findall content)).filterMap (entryFor resolve) := by
  by_cases hmax : settings.watch_max_placeholders > 0 ∧
      ((dedupe_placeholders (findall content)).length : Int) > settings.watch_max_placeholders
  · simp [parse_message_placeholders, hmax] at h
  · by_cases hemp : dedupe_placeholders (findall content) = []
    · have hfalse : ¬(0 < settings.watch_max_placeholders ∧
          settings.watch_max_placeholders < (0 : Int)) := by omega
      simp [parse_message_placeholders, hmax, hemp, hfalse] at h
    · simp only [parse_message_placeholders, hmax, hemp, if_false, ite_false] at h
      rcases hrl : runLoop resolve settings.watch_show_errors
          { parsed_content := content, success_count := 0, error_count := 0, errors := [] }
          (dedupe_placeholders (findall content)) with ⟨o, cs⟩
      rw [hrl] at h
      cases o with
      | none => simp at h
      | some st2 =>
        simp only [Prod.mk.injEq] at h
        rcases h with ⟨h1, h2⟩
        injection h1 with h1
        subst h1
        subst h2
        rcases runLoop_spec resolve settings.watch_show_errors
            (dedupe_placeholders (findall content)) _ st2 cs hrl with ⟨s1, s2, _, s4⟩
        refine ⟨by simpa using s1, s4 (by simp), by simpa using s2⟩

/-- Witness for C3: a concrete message with two tokens and an
always-failing resolver yields a report with two failure entries, in
order. -/
theorem claim_C3_witness :
    (⟨"<a> <b>", 0, 2, ["`<a>`: Connection failed.", "`<b>`: Connection failed."]⟩ :
        LoopState).success_count +
      (⟨"<a> <b>", 0, 2, ["`<a>`: Connection failed.", "`<b>`: Connection failed."]⟩ :
        LoopState).error_count =
      (dedupe_placeholders (findall "<a> <b>")).length ∧
    ([ "`<a>`: Connection failed.", "`<b>`: Connection failed."] : List String).length = 2 ∧
    ([ "`<a>`: Connection failed.", "`<b>`: Connection failed."] : List String) =
      (dedupe_placeholders (findall "<a> <b>")).filterMap (entryFor (fun _ _ => none)) := by
  have := claim_C3 (fun _ _ => none) "<a> <b>"
    ⟨"global", false, [], 0, 0, "reply", false, false, false, ""⟩
    ⟨"<a> <b>", 0, 2, ["`<a>`: Connection failed.", "`<b>`: Connection failed."]⟩
    [("a", none), ("b", none)] (by decide)
  exact this

/-- C4: assuming the remote responses are well formed (a success response
carries a value), the engine returns a top-level error exactly when the
unique token count is zero (the "no placeholders" error) or when
`maxPlaceholders > 0` and the unique token count exceeds it (the
"too many placeholders" error, issued with zero resolver calls); otherwise
it returns a report. -/
theorem claim_C4 (resolve : String → Option String → Option RemoteResponse)
    (content : String) (settings : Settings)
    (hwf : ∀ k p r, resolve k p = some r → respSuccess (some r) = true → r.value.isSome = true) :
    ((∃ e, (parse_message_placeholders resolve content settings).1 = ParseOutcome.error e) ↔
      (dedupe_placeholders (findall content) = [] ∨
       (settings.watch_max_placeholders > 0 ∧
        ((dedupe_placeholders (findall content)).length : Int) > settings.watch_max_placeholders))) ∧
    (settings.watch_max_placeholders > 0 ∧
        ((dedupe_placeholders (findall content)).length : Int) > settings.watch_max_placeholders →
      parse_message_placeholders resolve content settings =
        (ParseOutcome.error ("Too many placeholders detected ("
            ++ toString (dedupe_placeholders (findall content)).length
            ++ "). Maximum allowed: " ++ toString settings.watch_max_placeholders), [])) ∧
    (dedupe_placeholders (findall content) = [] →
      ¬ (settings.watch_max_placeholders > 0 ∧
        ((dedupe_placeholders (findall content)).length : Int) > settings.watch_max_placeholders) →
      parse_message_placeholders resolve content settings =
        (ParseOutcome.error "No placeholders found in message. Use format: `<context:placeholder>`",
         [])) ∧
    (dedupe_placeholders (findall content) ≠ [] →
      ¬ (settings.watch_max_placeholders > 0 ∧
        ((dedupe_placeholders (findall content)).length : Int) > settings.watch_max_placeholders) →
      ∃ st calls,
        parse_message_placeholders resolve content settings = (ParseOutcome.report st, calls)) := by
  by_cases hmax : settings.watch_max_placeholders > 0 ∧
      ((dedupe_placeholders (findall content)).length : Int) > settings.watch_max_placeholders
  · refine ⟨?_, fun _ => by simp [parse_message_placeholders, hmax],
      fun _ hn => absurd hmax hn, fun _ hn => absurd hmax hn⟩
    constructor
    · intro _; exact Or.inr hmax
    · intro _
      exact ⟨"Too many placeholders detected ("
          ++ toString (dedupe_placeholders (findall content)).length
          ++ "). Maximum allowed: " ++ toString settings.watch_max_placeholders,
        by simp [parse_message_placeholders, hmax]⟩
  · by_cases hemp : dedupe_placeholders (findall content) = []
    · have hfalse : ¬(0 < settings.watch_max_placeholders ∧
          settings.watch_max_placeholders < (0 : Int)) := by omega
      refine ⟨?_, fun hm => absurd hm hmax,
        fun _ _ => by simp [parse_message_placeholders, hmax, hemp, hfalse],
        fun hne _ => absurd hemp hne⟩
      constructor
      · intro _; exact Or.inl hemp
      · intro _
        exact ⟨"No placeholders found in message. Use format: `<context:placeholder>`",
          by simp [parse_message_placeholders, hmax, hemp, hfalse]⟩
    · rcases runLoop_total resolve settings.watch_show_errors hwf
          (dedupe_placeholders (findall content))
          { parsed_content := content, success_count := 0, error_count := 0, errors := [] }
        with ⟨st2, hst2⟩
      have hrep : parse_message_placeholders resolve content settings =
          (ParseOutcome.report st2,
           (runLoop resolve settings.watch_show_errors
             { parsed_content := content, success_count := 0, error_count := 0, errors := [] }
             (dedupe_placeholders (findall content))).2) := by
        simp [parse_message_placeholders, hmax, hemp, hst2]
      refine ⟨?_, fun hm => absurd hm hmax, fun he _ => absurd he hemp,
        fun _ _ => ⟨st2, _, hrep⟩⟩
      constructor
      · intro ⟨e, he⟩
        rw [hrep] at he
        simp at he
      · intro hor
        rcases hor with he | hm
        · exact absurd he hemp
        · exact absurd hm hmax

/-- Witness for C4: concrete "too many" error with zero calls, "no
placeholders" error, and a report for a small message. -/
theorem claim_C4_witness :
    parse_message_placeholders (fun _ _ => none) "<a> <b> <c>"
        ⟨"global", false, [], 0, 2, "reply", false, false, false, ""⟩ =
      (ParseOutcome.error "Too many placeholders detected (3). Maximum allowed: 2", []) ∧
    parse_message_placeholders (fun _ _ => none) "plain text"
        ⟨"global", false, [], 0, 2, "reply", false, false, false, ""⟩ =
      (ParseOutcome.error "No placeholders found in message. Use format: `<context:placeholder>`",
       []) ∧
    (∃ st calls,
      parse_message_placeholders (fun _ _ => none) "<a>"
          ⟨"global", false, [], 0, 2, "reply", false, false, false, ""⟩ =
        (ParseOutcome.report st, calls)) := by
  have hwf : ∀ k p r, (fun (_ : String) (_ : Option String) =>
      (none : Option RemoteResponse)) k p = some r →
      respSuccess (some r) = true → r.value.isSome = true := by
    intro k p r h
    simp at h
  refine ⟨?_, ?_, ?_⟩
  · have := (claim_C4 (fun _ _ => none) "<a> <b> <c>"
      ⟨"global", false, [], 0, 2, "reply", false, false, false, ""⟩ hwf).2.1 (by decide)
    rw [this]
    decide
  · have := (claim_C4 (fun _ _ => none) "plain text"
      ⟨"global", false, [], 0, 2, "reply", false, false, false, ""⟩ hwf).2.2.1
      (by decide) (by decide)
    rw [this]
  · exact (claim_C4 (fun _ _ => none) "<a>"
      ⟨"global", false, [], 0, 2, "reply", false, false, false, ""⟩ hwf).2.2.2
      (by decide) (by decide)

/-- C7 counterexample: a well-formed response `{"success": false}` with no
`error` field produces a per-token failure whose recorded message is the
generic `"Unknown error"`, not the `"Connection failed."` string the claim
requires when the error field is absent. -/
theorem claim_C7_counterexample :
    failureMessage (some ⟨some false, none, none, false⟩) = "Unknown error" ∧
    (⟨some false, none, none, false⟩ : RemoteResponse).error = none ∧
    parse_message_placeholders (fun _ _ => some ⟨some false, none, none, false⟩) "<x>"
        ⟨"global", false, [], 0, 0, "reply", false, false, false, ""⟩ =
      (ParseOutcome.report ⟨"<x>", 0, 1, ["`<x>`: Unknown error"]⟩, [("x", none)]) ∧
    "Unknown error" ≠ "Connection failed." := by
  refine ⟨rfl, rfl, by decide, by decide⟩

/-- C7 (amended): the resolver never raises — every transport exception and
every body that fails to decode yields `None` rather than an exception; a
failing token with no response (or an empty response object) is recorded
with the generic `"Connection failed."` message; a failing token with a
non-empty response takes its message from the response's `error` field when
present and the generic `"Unknown error"` otherwise; the recorded failure
entry embeds exactly that message. -/
theorem claim_C7_amended :
    (∀ k p d, parse_placeholder_via_api k p (Transport.ok d) = (mkParseRequest k p, some d)) ∧
    (∀ k p, (parse_placeholder_via_api k p Transport.clientError).2 = none ∧
            (parse_placeholder_via_api k p Transport.malformedBody).2 = none ∧
            (parse_placeholder_via_api k p Transport.otherError).2 = none) ∧
    failureMessage none = "Connection failed." ∧
    (∀ r : RemoteResponse, r.truthy = false → failureMessage (some r) = "Connection failed.") ∧
    (∀ (r : RemoteResponse) (e : String), r.truthy = true → r.error = some e →
      failureMessage (some r) = e) ∧
    (∀ r : RemoteResponse, r.truthy = true → r.error = none →
      failureMessage (some r) = "Unknown error") ∧
    (∀ (resolve : String → Option String → Option RemoteResponse) (ph : String),
      respSuccess (resolve (tokenCall ph).1 (tokenCall ph).2) = false →
      entryFor resolve ph = some ("`" ++ ("<" ++ ph ++ ">") ++ "`: "
        ++ failureMessage (resolve (tokenCall ph).1 (tokenCall ph).2))) := by
  refine ⟨fun k p d => rfl, fun k p => ⟨rfl, rfl, rfl⟩, rfl, ?_, ?_, ?_,
    fun resolve ph h => entryFor_some resolve ph h⟩
  · intro r h
    simp [failureMessage, h]
  · intro r e ht he
    simp [failureMessage, ht, he]
  · intro r ht he
    simp [failureMessage, ht, he]

/-- Witness for the amended C7 at concrete responses. -/
theorem claim_C7_witness :
    failureMessage (some ⟨none, none, none, false⟩) = "Connection failed." ∧
    failureMessage (some ⟨some false, none, some "bad token", false⟩) = "bad token" ∧
    failureMessage (some ⟨some false, none, none, true⟩) = "Unknown error" ∧
    entryFor (fun _ _ => none) "x" = some ("`" ++ ("<" ++ "x" ++ ">") ++ "`: "
      ++ failureMessage ((fun (_ : String) (_ : Option String) =>
          (none : Option RemoteResponse)) (tokenCall "x").1 (tokenCall "x").2)) := by
  refine ⟨claim_C7_amended.2.2.2.1 ⟨none, none, none, false⟩ (by decide),
    claim_C7_amended.2.2.2.2.1 ⟨some false, none, some "bad token", false⟩ "bad token"
      (by decide) rfl,
    claim_C7_amended.2.2.2.2.2.1 ⟨some false, none, none, true⟩ (by decide) rfl,
    claim_C7_amended.2.2.2.2.2.2 (fun _ _ => none) "x" (by decide)⟩

/-- C10: when a report is produced, exactly one resolver call is made per
deduplicated token (the deduplicated list is pairwise distinct under
lowercasing, so several casings of one token yield a single call), and in
the concrete example `<Server:Online>`/`<server:online>` only the
occurrence in the first-seen casing is replaced while the other casing
remains verbatim. -/
theorem claim_C10 :
    (∀ (resolve : String → Option String → Option RemoteResponse)
        (content : String) (settings : Settings) (st : LoopState)
        (calls : List (String × Option String)),
      parse_message_placeholders resolve content settings = (ParseOutcome.report st, calls) →
      calls = (dedupe_placeholders (findall content)).map tokenCall ∧
      List.Pairwise (fun a b => pyLower a ≠ pyLower b) (dedupe_placeholders (findall content))) ∧
    parse_message_placeholders
        (fun k _ => if k = "Online" then some ⟨some true, some "5", none, false⟩ else none)
        "<Server:Online> and <server:online>"
        ⟨"global", false, [], 0, 0, "reply", true, false, false, ""⟩ =
      (ParseOutcome.report ⟨"5 and <server:online>", 1, 0, []⟩, [("Online", none)]) := by
  constructor
  · intro resolve content settings st calls h
    refine ⟨?_, dedupeAux_pairwise (findall content) []⟩
    by_cases hmax : settings.watch_max_placeholders > 0 ∧
        ((dedupe_placeholders (findall content)).length : Int) > settings.watch_max_placeholders
    · simp [parse_message_placeholders, hmax] at h
    · by_cases hemp : dedupe_placeholders (findall content) = []
      · have hfalse : ¬(0 < settings.watch_max_placeholders ∧
            settings.watch_max_placeholders < (0 : Int)) := by omega
        simp [parse_message_placeholders, hmax, hemp, hfalse] at h
      · simp only [parse_message_placeholders, hmax, hemp, if_false, ite_false] at h
        rcases hrl : runLoop resolve settings.watch_show_errors
            { parsed_content := content, success_count := 0, error_count := 0, errors := [] }
            (dedupe_placeholders (findall content)) with ⟨o, cs⟩
        rw [hrl] at h
        cases o with
        | none => simp at h
        | some st2 =>
          simp only [Prod.mk.injEq] at h
          rcases h with ⟨_, h2⟩
          subst h2
          exact (runLoop_spec resolve settings.watch_show_errors
            (dedupe_placeholders (findall content)) _ st2 cs hrl).2.2.1
  · decide

/-- Witness for C10: the general clause applied at the concrete
demonstration message. -/
theorem claim_C10_witness :
    ([("Online", none)] : List (String × Option String)) =
      (dedupe_placeholders (findall "<Server:Online> and <server:online>")).map tokenCall ∧
    List.Pairwise (fun a b => pyLower a ≠ pyLower b)
      (dedupe_placeholders (findall "<Server:Online> and <server:online>")) := by
  exact claim_C10.1
    (fun k _ => if k = "Online" then some ⟨some true, some "5", none, false⟩ else none)
    "<Server:Online> and <server:online>"
    ⟨"global", false, [], 0, 0, "reply", true, false, false, ""⟩
    ⟨"5 and <server:online>", 1, 0, []⟩ [("Online", none)] claim_C10.2

/-! ## Lemmas about the access gate and the orchestrator -/

theorem roleStageResult_false (msg : MessageIn) (settings : Settings) :
    ∀ rej, roleStageResult msg settings = some rej → rej.1 = false := by
  intro rej h
  unfold roleStageResult at h
  split at h
  · split at h
    · split at h
      · injection h with h; subst h; rfl
      · split at h
        · injection h with h; subst h; rfl
        · exact absurd h (by simp)
    · exact absurd h (by simp)
  · exact absurd h (by simp)

/-- C9: the access gate rejects when the mode is disabled, rejects in
channels mode any message whose channel is not in the allowed set, lets a
message in an allowed channel proceed to the role and cooldown stage, and
admits only when every check (mode, channel, role requirement, cooldown)
passes. -/
theorem claim_C9 (msg : MessageIn) (settings : Settings) (st : CooldownState) (now : Nat) :
    (settings.watch_mode = "disabled" →
      should_process_watch msg settings st now = ((false, "Watch mode disabled"), st)) ∧
    (settings.watch_mode = "channels" → msg.channelId ∉ settings.watch_channels →
      should_process_watch msg settings st now = ((false, "Channel not in watch list"), st)) ∧
    (settings.watch_mode = "channels" → msg.channelId ∈ settings.watch_channels →
      should_process_watch msg settings st now = roleAndCooldownStage msg settings st now) ∧
    ((should_process_watch msg settings st now).1.1 = true →
      settings.watch_mode ≠ "disabled" ∧
      (settings.watch_mode = "channels" → msg.channelId ∈ settings.watch_channels) ∧
      roleStageResult msg settings = none ∧
      (check_cooldown st msg.authorId settings.watch_cooldown now).1 = true) := by
  refine ⟨?_, ?_, ?_, ?_⟩
  · intro h
    simp [should_process_watch, h]
  · intro h1 h2
    have hne : ¬ settings.watch_mode = "disabled" := by rw [h1]; decide
    simp [should_process_watch, hne, h1, h2]
  · intro h1 h2
    have hne : ¬ settings.watch_mode = "disabled" := by rw [h1]; decide
    simp [should_process_watch, hne, h1, h2]
  · intro h
    by_cases hd : settings.watch_mode = "disabled"
    · simp [should_process_watch, hd] at h
    · by_cases hc : settings.watch_mode = "channels" ∧ msg.channelId ∉ settings.watch_channels
      · simp [should_process_watch, hd, hc] at h
      · have hgate : should_process_watch msg settings st now =
            roleAndCooldownStage msg settings st now := by
          simp [should_process_watch, hd, hc]
        rw [hgate] at h
        refine ⟨hd, ?_, ?_, ?_⟩
        · intro hm
          by_contra hnotin
          exact hc ⟨hm, hnotin⟩
        · cases hrs : roleStageResult msg settings with
          | none => rfl
          | some rej =>
            have hfalse := roleStageResult_false msg settings rej hrs
            rw [roleAndCooldownStage, hrs] at h
            simp at h
            rw [h] at hfalse
            exact absurd hfalse (by decide)
        · cases hrs : roleStageResult msg settings with
          | some rej =>
            have hfalse := roleStageResult_false msg settings rej hrs
            rw [roleAndCooldownStage, hrs] at h
            simp at h
            rw [h] at hfalse
            exact absurd hfalse (by decide)
          | none =>
            rw [roleAndCooldownStage, hrs] at h
            by_cases hcd : (check_cooldown st msg.authorId settings.watch_cooldown now).1 = true
            · exact hcd
            · have hcf : (check_cooldown st msg.authorId settings.watch_cooldown now).1 = false := by
                simpa using hcd
              simp [hcf] at h

/-- Witness for C9 at concrete policies: disabled mode, unwatched channel,
watched channel, and a full pass. -/
theorem claim_C9_witness :
    should_process_watch ⟨false, true, "m", 11, 5, true, [], []⟩
        ⟨"disabled", false, [10], 0, 0, "reply", false, false, false, ""⟩ [] 100 =
      ((false, "Watch mode disabled"), []) ∧
    should_process_watch ⟨false, true, "m", 11, 5, true, [], []⟩
        ⟨"channels", false, [10], 0, 0, "reply", false, false, false, ""⟩ [] 100 =
      ((false, "Channel not in watch list"), []) ∧
    should_process_watch ⟨false, true, "m", 10, 5, true, [], []⟩
        ⟨"channels", false, [10], 0, 0, "reply", false, false, false, ""⟩ [] 100 =
      roleAndCooldownStage ⟨false, true, "m", 10, 5, true, [], []⟩
        ⟨"channels", false, [10], 0, 0, "reply", false, false, false, ""⟩ [] 100 ∧
    ("channels" ≠ "disabled" ∧
      ((("channels" : String) = "channels") → (10 : Nat) ∈ [(10 : Nat)]) ∧
      roleStageResult ⟨false, true, "m", 10, 5, true, [], []⟩
        ⟨"channels", false, [10], 5, 0, "reply", false, false, false, ""⟩ = none ∧
      (check_cooldown [] 5 5 100).1 = true) := by
  refine ⟨(claim_C9 ⟨false, true, "m", 11, 5, true, [], []⟩
      ⟨"disabled", false, [10], 0, 0, "reply", false, false, false, ""⟩ [] 100).1 rfl,
    (claim_C9 ⟨false, true, "m", 11, 5, true, [], []⟩
      ⟨"channels", false, [10], 0, 0, "reply", false, false, false, ""⟩ [] 100).2.1 rfl
      (by decide),
    (claim_C9 ⟨false, true, "m", 10, 5, true, [], []⟩
      ⟨"channels", false, [10], 0, 0, "reply", false, false, false, ""⟩ [] 100).2.2.1 rfl
      (by decide),
    ?_⟩
  have := (claim_C9 ⟨false, true, "m", 10, 5, true, [], []⟩
      ⟨"channels", false, [10], 5, 0, "reply", false, false, false, ""⟩ [] 100).2.2.2
      (by decide)
  exact ⟨by decide, fun _ => by decide, this.2.2.1, this.2.2.2⟩

/-- C1 counterexample: with strict mode on and a message that lacks the
`||papi||` marker, `on_message` sends nothing, but the access gate (with its
cooldown check-and-commit) has already run, so the author's cooldown
timestamp is written: the state changes from `[]` to `[(5, 100)]`, refuting
"no state is mutated". -/
theorem claim_C1_counterexample :
    on_message (fun _ _ => none)
        ⟨false, true, "hello <server:online>", 1, 5, true, [], []⟩
        ⟨"global", true, [], 5, 0, "reply", true, false, false, ""⟩ [] 100 =
      ([], [(5, 100)]) ∧
    ([(5, 100)] : CooldownState) ≠ [] := by
  exact ⟨by decide, by decide⟩

/-- C1 (amended): with strict mode on, a message that does not begin with
the `||papi||` marker produces no reply and no other side effect; however,
the access gate — including the cooldown check-and-update — has already run
before the strict-mode check, so the resulting cooldown state is exactly the
gate's output state (for a non-bot, in-guild, nonempty message), which
updates the author's timestamp whenever the gate admitted the message. -/
theorem claim_C1_amended (resolve : String → Option String → Option RemoteResponse)
    (msg : MessageIn) (settings : Settings) (st : CooldownState) (now : Nat)
    (h1 : settings.watch_strict_mode = true)
    (h2 : pyStartsWith msg.content triggerMarker = false) :
    on_message resolve msg settings st now =
      ([], if msg.authorBot ∨ ¬ msg.guildPresent ∨ msg.content = "" then st
           else (should_process_watch msg settings st now).2) := by
  by_cases hb : msg.authorBot
  · simp [on_message, hb]
  · by_cases hg : msg.guildPresent
    · by_cases hc : msg.content = ""
      · simp [on_message, hb, hg, hc]
      · simp [on_message, hb, hg, hc, h1, h2]
    · simp [on_message, hb, hg]

/-- Witness for the amended C1 at a concrete message: the marker is absent,
nothing is sent, and the state is the gate's output (the author's timestamp
is committed). -/
theorem claim_C1_witness :
    on_message (fun _ _ => none) ⟨false, true, "hi", 2, 9, true, [], []⟩
        ⟨"global", true, [], 5, 0, "reply", true, false, false, ""⟩ [] 50 =
      ([], [(9, 50)]) := by
  rw [claim_C1_amended (fun _ _ => none) ⟨false, true, "hi", 2, 9, true, [], []⟩
    ⟨"global", true, [], 5, 0, "reply", true, false, false, ""⟩ [] 50 rfl (by decide)]
  decide
